import Mathlib

/-!
Verification development for the memalpha memcached text-protocol client.

The repository has two client implementations sharing one protocol codec
design: the `memalpha` package (`mem.go`, type `Client`) and the
`textproto` package (type `TextConn`).  Both are embedded here.

Wire bytes are modelled as `List Nat` (byte values).  The network stream
is modelled by a list of input bytes still to be read, a list of output
bytes written so far, and the sticky error slot `err` each client type
carries.  `flushErr` on `Client` models the error the underlying buffered
writer's `Flush` would report (`nil` when the transport is healthy).
`bufio.Reader.ReadLine` is modelled at the granularity of whole lines:
the client-side loop in `readLine` reassembles `isPrefix` fragments, so a
complete line is returned regardless of the internal buffer size.
-/

set_option maxHeartbeats 1000000

instance {ε α : Type} [DecidableEq ε] [DecidableEq α] : DecidableEq (Except ε α) := fun x y =>
  match x, y with
  | Except.ok a, Except.ok b =>
    if h : a = b then Decidable.isTrue (h ▸ rfl)
    else Decidable.isFalse (fun hc => h (Except.ok.inj hc))
  | Except.error a, Except.error b =>
    if h : a = b then Decidable.isTrue (h ▸ rfl)
    else Decidable.isFalse (fun hc => h (Except.error.inj hc))
  | Except.ok _, Except.error _ => Decidable.isFalse (fun hc => Except.noConfusion hc)
  | Except.error _, Except.ok _ => Decidable.isFalse (fun hc => Except.noConfusion hc)

/-- Wire bytes, as their numeric values. -/
abbrev Bytes := List Nat

/-- ASCII byte values of a string literal. -/
def strBytes (s : String) : Bytes := s.data.map Char.toNat

/-- Shapes of the messages carried by `ProtocolError` values in the source
(each constructor stands for one distinct `fmt` format used there). -/
inductive ProtoMsg where
  | malformedResponse (header : Bytes)
  | corruptGetResultEnd
  | unknownReplyType (reply : Bytes)
  | malformedStatsResponse
  | malformedVersionResponse (reply : Bytes)
  deriving DecidableEq

/-- Kinds of `strconv.NumError`: bad digits, or value out of range. -/
inductive NumErrKind where
  | errSyn
  | errRange
  deriving DecidableEq

/-- Errors of the Go client: the named domain errors, protocol errors,
server-reported errors, `strconv` errors, transport errors, and an
abstract injected transport fault used to model a failing stream. -/
inductive GoErr where
  | cacheMiss
  | notFound
  | casConflict
  | notStored
  | replyError
  | protocolError (msg : ProtoMsg)
  | clientError (msg : Bytes)
  | serverError (msg : Bytes)
  | numError (num : Bytes) (kind : NumErrKind)
  | eofErr
  | unexpectedEOF
  | injected (n : Nat)
  deriving DecidableEq

def replyStored : Bytes := strBytes ("STORED")

def replyNotStored : Bytes := strBytes ("NOT_STORED")

def replyExists : Bytes := strBytes ("EXISTS")

def replyNotFound : Bytes := strBytes ("NOT_FOUND")

def replyDeleted : Bytes := strBytes ("DELETED")

def replyTouched : Bytes := strBytes ("TOUCHED")

def replyOk : Bytes := strBytes ("OK")

def replyError : Bytes := strBytes ("ERROR")

/-- Source name `replyClientErrorPrefix` (the literal `CLIENT_ERROR `). -/
def replyClientErrorTag : Bytes := strBytes ("CLIENT_ERROR ")

/-- Source name `replyServerErrorPrefix` (the literal `SERVER_ERROR `). -/
def replyServerErrorTag : Bytes := strBytes ("SERVER_ERROR ")

def responseEnd : Bytes := strBytes ("END")

def bytesCrlf : Bytes := strBytes ("\r\n")

/-- Source name `bytesVersion` (the literal `VERSION `). -/
def bytesVersionTag : Bytes := strBytes ("VERSION ")

/-- The literal `STAT ` checked by the stats loop. -/
def statTag : Bytes := strBytes ("STAT ")

/-- Decimal digit test on a byte value. -/
def isDigitByte (c : Nat) : Bool := 48 ≤ c && c ≤ 57

/-- Value of a decimal digit string. -/
def digitsVal (s : Bytes) : Nat := s.foldl (fun a c => a * 10 + (c - 48)) 0

/-- Model of `strconv.ParseUint(s, 10, bitSize)`: empty or non-digit input
is a syntax error, a value needing more than `bitSize` bits is a range
error, otherwise the decimal value is returned. -/
def parseUint (s : Bytes) (bitSize : Nat) : Except GoErr Nat :=
  if s.isEmpty then Except.error (GoErr.numError s NumErrKind.errSyn)
  else if s.all isDigitByte then
    if digitsVal s < 2 ^ bitSize then Except.ok (digitsVal s)
    else Except.error (GoErr.numError s NumErrKind.errRange)
  else Except.error (GoErr.numError s NumErrKind.errSyn)

/-- Model of `bytes.SplitN(xs, [sep], n)`: split around the first `n - 1`
occurrences of `sep`, keeping empty fields. -/
def splitNOn (sep : Nat) : Nat → Bytes → List Bytes
  | 0, _ => []
  | 1, xs => [xs]
  | Nat.succ n, xs =>
    let pre := xs.takeWhile (fun c => c != sep)
    let rest := xs.dropWhile (fun c => c != sep)
    match rest with
    | [] => [xs]
    | _ :: rs => pre :: splitNOn sep n rs

/-- Strip one trailing carriage return, as `bufio.ReadLine` does before
the line feed it removes. -/
def dropTrailingCR (l : Bytes) : Bytes :=
  match l.getLast? with
  | some 13 => l.dropLast
  | _ => l

/-- One reassembled `bufio.ReadLine` on the byte stream: empty stream is
`io.EOF`; otherwise the bytes up to the first line feed form the line
(with the line terminator removed); a final partial line without a line
feed is returned as-is with no error. -/
def readLineRaw (input : List Nat) : Bytes × Option GoErr × List Nat :=
  if input.isEmpty then ([], some GoErr.eofErr, [])
  else
    let pre := input.takeWhile (fun c => c != 10)
    let rest := input.dropWhile (fun c => c != 10)
    match rest with
    | [] => (pre, none, [])
    | _ :: rs => (dropTrailingCR pre, none, rs)

/-- Item returned by the get family (`mem.go` / `conn.go`). -/
structure Response where
  Value : Bytes
  Flags : Nat
  CasID : Nat
  deriving DecidableEq

/-- The `memalpha.Client` of `mem.go`: stream position, written bytes, the
underlying writer's pending flush fault, and the sticky error slot. -/
structure Client where
  input : List Nat
  output : List Nat
  flushErr : Option GoErr
  err : Option GoErr
  deriving DecidableEq

/-- `Client.readLine` of `mem.go`: a set sticky error is returned at once
with no bytes and no stream access; otherwise one full line is read and a
read failure is recorded in the sticky slot. -/
def Client.readLine (c : Client) : Bytes × Option GoErr × Client :=
  match c.err with
  | some e => ([], some e, c)
  | none =>
    match readLineRaw c.input with
    | (line, none, rest) => (line, none, { c with input := rest })
    | (line, some e, rest) => (line, some e, { c with input := rest, err := some e })

/-- `Client.write` of `mem.go`: no-op when the sticky error is set,
otherwise buffer the bytes (buffered writes themselves do not fail). -/
def Client.write (c : Client) (p : Bytes) : Client :=
  match c.err with
  | some _ => c
  | none => { c with output := c.output ++ p }

/-- `Client.flush` of `mem.go`: with no sticky error it returns the
underlying `Flush` result; with one set it clears the slot and returns
the stored error. -/
def Client.flush (c : Client) : Option GoErr × Client :=
  match c.err with
  | none => (c.flushErr, c)
  | some e => (some e, { c with err := none })

/-- `Client.receiveGetPayload` of `mem.go`: `io.ReadFull` of
`size + 2` bytes, then the trailing-CRLF check. -/
def Client.receiveGetPayload (c : Client) (size : Nat) : Except GoErr Bytes × Client :=
  if size + 2 ≤ c.input.length then
    let buffer := c.input.take (size + 2)
    let c1 := { c with input := c.input.drop (size + 2) }
    if bytesCrlf <:+ buffer then (Except.ok buffer, c1)
    else (Except.error (GoErr.protocolError ProtoMsg.corruptGetResultEnd), c1)
  else
    (Except.error (if c.input.isEmpty then GoErr.eofErr else GoErr.unexpectedEOF),
      { c with input := [] })

/-- `Client.receiveGetResponse` of `mem.go`: read the header line, detect
the `END` cache-miss sentinel, split the header on spaces, parse flags
(32-bit), length (64-bit) and — only for exactly five fields — the CAS id
(64-bit), then read the payload and keep its first `size` bytes. -/
def Client.receiveGetResponse (c : Client) : Except GoErr (Bytes × Response) × Client :=
  match c.readLine with
  | (_, some e, c1) => (Except.error e, c1)
  | (header, none, c1) =>
    if header = responseEnd then (Except.error GoErr.cacheMiss, c1)
    else
      match header.splitOn 32 with
      | _ :: key :: fChunk :: sChunk :: rest =>
        match parseUint fChunk 32 with
        | Except.error e => (Except.error e, c1)
        | Except.ok flags =>
          match parseUint sChunk 64 with
          | Except.error e => (Except.error e, c1)
          | Except.ok size =>
            match (match rest with
                   | [casChunk] => parseUint casChunk 64
                   | _ => Except.ok 0) with
            | Except.error e => (Except.error e, c1)
            | Except.ok cas =>
              match c1.receiveGetPayload size with
              | (Except.error e, c2) => (Except.error e, c2)
              | (Except.ok payload, c2) =>
                (Except.ok (key, ⟨payload.take size, flags, cas⟩), c2)
      | _ => (Except.error (GoErr.protocolError (ProtoMsg.malformedResponse header)), c1)

/-- `Client.Get` of `mem.go`: send `get <key>`, receive one item, then
require the `END` sentinel line. -/
def Client.Get (c : Client) (key : Bytes) : Except GoErr (Bytes × Nat) × Client :=
  let c1 := c.write (strBytes ("get ") ++ key ++ bytesCrlf)
  match c1.flush with
  | (some e, c2) => (Except.error e, c2)
  | (none, c2) =>
    match c2.receiveGetResponse with
    | (Except.error e, c3) => (Except.error e, c3)
    | (Except.ok (_, response), c3) =>
      match c3.readLine with
      | (_, some e, c4) => (Except.error e, c4)
      | (endLine, none, c4) =>
        if endLine = responseEnd then (Except.ok (response.Value, response.Flags), c4)
        else (Except.error (GoErr.protocolError ProtoMsg.corruptGetResultEnd), c4)

/-- Outcome of the stats loop, with Go's run-time panic (out-of-range
index) as an explicit result. -/
inductive StatsOutcome where
  | ok (m : List (Bytes × Bytes))
  | err (e : GoErr)
  | panicked
  | outOfFuel
  deriving DecidableEq

/-- Go map store `m[k] = v` on an association list. -/
def assocSet (m : List (Bytes × Bytes)) (k v : Bytes) : List (Bytes × Bytes) :=
  match m with
  | [] => [(k, v)]
  | (k0, v0) :: tl => if k0 = k then (k, v) :: tl else (k0, v0) :: assocSet tl k v

/-- The reply loop of `Client.stats` in `mem.go`.  `fuel` bounds the
iterations; one line is consumed per iteration, so any fuel above the
remaining input length is enough.  A line that passes the `STAT ` check
but splits into fewer than two fields makes Go index `data[1]` out of
range: that is the `panicked` outcome. -/
def Client.statsLoop : Nat → Client → List (Bytes × Bytes) → StatsOutcome × Client
  | 0, c, _ => (StatsOutcome.outOfFuel, c)
  | Nat.succ fuel, c, m =>
    match c.readLine with
    | (_, some e, c1) => (StatsOutcome.err e, c1)
    | (line, none, c1) =>
      if line = responseEnd then (StatsOutcome.ok m, c1)
      else if statTag <+: line then
        match splitNOn 32 3 (line.drop 5) with
        | k :: v :: _ => Client.statsLoop fuel c1 (assocSet m k v)
        | _ => (StatsOutcome.panicked, c1)
      else (StatsOutcome.err (GoErr.protocolError ProtoMsg.malformedStatsResponse), c1)

/-- `Client.stats` of `mem.go`: write the command, flush with the result
discarded (as the source does), then run the reply loop. -/
def Client.stats (c : Client) (command : Bytes) : StatsOutcome × Client :=
  let c1 := c.write command
  let c2 := (c1.flush).2
  Client.statsLoop (c2.input.length + 1) c2 []

/-- `Client.Stats` of `mem.go`. -/
def Client.Stats (c : Client) : StatsOutcome × Client :=
  c.stats (strBytes ("stats\r\n"))

/-- `Client.Delete` of `mem.go`: write `delete <key> [noreply]`, flush
with the result discarded (as the source does), then — unless `noreply` —
read and classify one reply line. -/
def Client.Delete (c : Client) (key : Bytes) (noreply : Bool) : Except GoErr Unit × Client :=
  let option := if noreply then strBytes ("noreply") else []
  let c1 := c.write (strBytes ("delete ") ++ key ++ strBytes (" ") ++ option ++ bytesCrlf)
  let c2 := (c1.flush).2
  if noreply then (Except.ok (), c2)
  else
    match c2.readLine with
    | (_, some e, c3) => (Except.error e, c3)
    | (reply, none, c3) =>
      if reply = replyDeleted then (Except.ok (), c3)
      else if reply = replyNotFound then (Except.error GoErr.notFound, c3)
      else (Except.error (GoErr.protocolError (ProtoMsg.unknownReplyType reply)), c3)

/-- `Client.Version` of `mem.go`: write `version`, flush with the result
discarded (as the source does), read one line; a `VERSION ` prefix yields
the remainder, anything else a protocol error. -/
def Client.Version (c : Client) : Except GoErr Bytes × Client :=
  let c1 := c.write (strBytes ("version\r\n"))
  let c2 := (c1.flush).2
  match c2.readLine with
  | (_, some e, c3) => (Except.error e, c3)
  | (reply, none, c3) =>
    if bytesVersionTag <+: reply then (Except.ok (reply.drop 8), c3)
    else (Except.error (GoErr.protocolError (ProtoMsg.malformedVersionResponse reply)), c3)

/-- The `textproto.TextConn` of the textproto package: stream position,
written bytes, and the sticky error slot. -/
structure TextConn where
  input : List Nat
  output : List Nat
  err : Option GoErr
  deriving DecidableEq

/-- `TextConn.readLine`: a set sticky error yields no bytes and no stream
access; otherwise one full line is read and a read failure is recorded in
the sticky slot. -/
def TextConn.readLine (c : TextConn) : Bytes × TextConn :=
  match c.err with
  | some _ => ([], c)
  | none =>
    match readLineRaw c.input with
    | (line, none, rest) => (line, { c with input := rest })
    | (line, some e, rest) => (line, { c with input := rest, err := some e })

/-- `TextConn.write`: no-op when the sticky error is set, otherwise
buffer the bytes. -/
def TextConn.write (c : TextConn) (p : Bytes) : TextConn :=
  match c.err with
  | some _ => c
  | none => { c with output := c.output ++ p }

/-- `TextConn.flush`: no-op when the sticky error is set; the underlying
`Flush` is modelled as succeeding. -/
def TextConn.flush (c : TextConn) : TextConn :=
  match c.err with
  | some _ => c
  | none => c

/-- `TextConn.Err`: drain the sticky error slot. -/
def TextConn.Err (c : TextConn) : Option GoErr × TextConn :=
  (c.err, { c with err := none })

/-- `TextConn.receiveReply`: short-circuit on a set sticky error, else
read one line. -/
def TextConn.receiveReply (c : TextConn) : Bytes × TextConn :=
  match c.err with
  | some _ => ([], c)
  | none => c.readLine

/-- `TextConn.checkReply`: the reply classifier of the textproto package,
in the source's switch order. -/
def TextConn.checkReply (c : TextConn) (reply : Bytes) : Bool × TextConn :=
  match c.err with
  | some _ => (false, c)
  | none =>
    if reply = replyStored ∨ reply = replyDeleted ∨ reply = replyTouched ∨ reply = replyOk then
      (true, c)
    else if reply = replyExists then (false, { c with err := some GoErr.casConflict })
    else if reply = replyNotStored then (false, { c with err := some GoErr.notStored })
    else if reply = replyNotFound then (false, { c with err := some GoErr.notFound })
    else if reply = replyError then (false, { c with err := some GoErr.replyError })
    else if replyClientErrorTag <+: reply then
      (false, { c with err := some (GoErr.clientError (reply.drop replyClientErrorTag.length)) })
    else if replyServerErrorTag <+: reply then
      (false, { c with err := some (GoErr.serverError (reply.drop replyServerErrorTag.length)) })
    else (false, c)

/-- `TextConn.parseGetResponseHeader` (pure part): split the header on
spaces, parse flags (32-bit), length (64-bit) and — only for exactly five
fields — the CAS id; returns key, flags, length and CAS id. -/
def parseGetResponseHeader (header : Bytes) : Except GoErr (Bytes × Nat × Nat × Nat) :=
  match header.splitOn 32 with
  | _ :: key :: fChunk :: sChunk :: rest =>
    match parseUint fChunk 32 with
    | Except.error e => Except.error e
    | Except.ok flags =>
      match parseUint sChunk 64 with
      | Except.error e => Except.error e
      | Except.ok size =>
        match rest with
        | [casChunk] =>
          match parseUint casChunk 64 with
          | Except.error e => Except.error e
          | Except.ok cas => Except.ok (key, flags, size, cas)
        | _ => Except.ok (key, flags, size, 0)
  | _ => Except.error (GoErr.protocolError (ProtoMsg.malformedResponse header))

/-- `TextConn.Version`: write `version`, flush, read one reply, run it
through `checkReply`, drain the sticky error, then on success require the
`VERSION ` prefix. -/
def TextConn.Version (c : TextConn) : Except GoErr Bytes × TextConn :=
  let c1 := c.write (strBytes ("version\r\n"))
  let c2 := c1.flush
  let r := c2.receiveReply
  let c4 := (r.2.checkReply r.1).2
  match c4.Err with
  | (some e, c5) => (Except.error e, c5)
  | (none, c5) =>
    if bytesVersionTag <+: r.1 then (Except.ok (r.1.drop (bytesVersionTag.length)), c5)
    else (Except.error (GoErr.protocolError (ProtoMsg.unknownReplyType r.1)), c5)

/-! Helper lemmas -/

theorem append_len_ne (pre msg t : Bytes) (h : t.length < pre.length) : pre ++ msg ≠ t := by
  intro he
  have hl := congrArg List.length he
  simp [List.length_append] at hl
  omega

theorem leading_take (p x : Bytes) (h : p <+: x) : x.take p.length = p := by
  obtain ⟨t, rfl⟩ := h
  exact List.take_left p t

theorem takeWhile_app_all (p : Nat → Bool) (l r : List Nat) (h : ∀ x ∈ l, p x = true) :
    (l ++ r).takeWhile p = l ++ r.takeWhile p := by
  induction l with
  | nil => rfl
  | cons a tl ih =>
    have ha : p a = true := h a (List.mem_cons_self a tl)
    simp [List.takeWhile_cons, ha]
    exact ih (fun x hx => h x (List.mem_cons_of_mem a hx))

theorem dropWhile_app_all (p : Nat → Bool) (l r : List Nat) (h : ∀ x ∈ l, p x = true) :
    (l ++ r).dropWhile p = r.dropWhile p := by
  induction l with
  | nil => rfl
  | cons a tl ih =>
    have ha : p a = true := h a (List.mem_cons_self a tl)
    simp [List.dropWhile_cons, ha]
    exact ih (fun x hx => h x (List.mem_cons_of_mem a hx))

theorem readLineRaw_crlf (l r : List Nat) (h : (10 : Nat) ∉ l) :
    readLineRaw (l ++ 13 :: 10 :: r) = (l, none, r) := by
  have hall : ∀ x ∈ l, (x != 10) = true := by
    intro x hx
    simp [bne_iff_ne]
    intro hx10
    exact h (hx10 ▸ hx)
  have hne : (l ++ 13 :: 10 :: r).isEmpty = false := by
    cases l <;> simp [List.isEmpty]
  have htake : (l ++ 13 :: 10 :: r).takeWhile (fun c => c != 10) = l ++ [13] := by
    rw [takeWhile_app_all _ _ _ hall]
    simp [List.takeWhile_cons]
  have hdrop : (l ++ 13 :: 10 :: r).dropWhile (fun c => c != 10) = 10 :: r := by
    rw [dropWhile_app_all _ _ _ hall]
    simp [List.dropWhile_cons]
  have hlast : dropTrailingCR (l ++ [13]) = l := by
    unfold dropTrailingCR
    rw [List.getLast?_concat]
    exact List.dropLast_concat
  unfold readLineRaw
  rw [hne]
  simp only [Bool.false_eq_true, if_false, htake, hdrop, hlast]

theorem splitNOn_no_sep (sep : Nat) (n : Nat) (xs : Bytes) (h : sep ∉ xs) (hn : 1 ≤ n) :
    splitNOn sep n xs = [xs] := by
  match n, hn with
  | 1, _ => rfl
  | Nat.succ (Nat.succ k), _ =>
    have hdw : xs.dropWhile (fun c => c != sep) = [] := by
      rw [List.dropWhile_eq_nil_iff]
      intro x hx
      simp [bne_iff_ne]
      intro hxs
      exact h (hxs ▸ hx)
    simp only [splitNOn, hdw]

theorem splitNOn_split_at_sep (sep : Nat) (n : Nat) (a b : Bytes) (h : sep ∉ a) :
    splitNOn sep (n + 2) (a ++ sep :: b) = a :: splitNOn sep (n + 1) b := by
  have hall : ∀ x ∈ a, (x != sep) = true := by
    intro x hx
    simp [bne_iff_ne]
    intro hxs
    exact h (hxs ▸ hx)
  have htake : (a ++ sep :: b).takeWhile (fun c => c != sep) = a := by
    rw [takeWhile_app_all _ _ _ hall]
    simp [List.takeWhile_cons]
  have hdrop : (a ++ sep :: b).dropWhile (fun c => c != sep) = sep :: b := by
    rw [dropWhile_app_all _ _ _ hall]
    simp [List.dropWhile_cons]
  simp only [splitNOn, htake, hdrop]

theorem statsLoop_final_end (fuel : Nat) (c : Client) (m : List (Bytes × Bytes))
    (hf : fuel ≠ 0) (hc : c.err = none) (hi : c.input = responseEnd ++ 13 :: 10 :: []) :
    Client.statsLoop fuel c m = (StatsOutcome.ok m, { c with input := [] }) := by
  obtain ⟨k, rfl⟩ := Nat.exists_eq_succ_of_ne_zero hf
  have h10 : (10 : Nat) ∉ responseEnd := by decide
  simp only [Client.statsLoop, Client.readLine, hc, hi, readLineRaw_crlf _ _ h10]
  simp

/-! Claim theorems -/

/-- C2: for the scripted single-key response `VALUE foo 0 6 123`, payload
`foobar` and the `END` sentinel, `Client.Get` returns the payload bytes
and the decimal flags with no error, and `Client.receiveGetResponse`
parses the optional fifth field as the CAS id 123. -/
theorem C2_get_single_key_scripted :
    (Client.Get ⟨strBytes ("VALUE foo 0 6 123\r\nfoobar\r\nEND\r\n"), [], none, none⟩
        (strBytes ("foo"))).1 = Except.ok (strBytes ("foobar"), 0)
    ∧ (Client.receiveGetResponse
        ⟨strBytes ("VALUE foo 0 6 123\r\nfoobar\r\nEND\r\n"), [], none, none⟩).1
      = Except.ok (strBytes ("foo"), ⟨strBytes ("foobar"), 0, 123⟩) := by
  constructor
  · decide
  · decide

/-- C4: evaluating the stats reader at the failing input: a reply line
`STAT pid` that carries the `STAT ` prefix but no value field makes the
code index `data[1]` out of range (a run-time panic), not return the
protocol error `malformed stats response`; a line without the `STAT `
prefix does return that protocol error. -/
theorem C4_stats_missing_value_panics :
    (Client.Stats ⟨strBytes ("STAT pid\r\nEND\r\n"), [], none, none⟩).1 = StatsOutcome.panicked
    ∧ (Client.Stats ⟨strBytes ("foobar\r\nEND\r\n"), [], none, none⟩).1
      = StatsOutcome.err (GoErr.protocolError ProtoMsg.malformedStatsResponse) := by
  constructor
  · decide
  · decide

/-- C5 counterexample: on the stats line `STAT key a b` the stored value
is only `a`, the field between the first and second space, not the whole
remainder `a b` the claim requires. -/
theorem C5_whole_remainder_refuted :
    (Client.Stats ⟨strBytes ("STAT key a b\r\nEND\r\n"), [], none, none⟩).1
      = StatsOutcome.ok [(strBytes ("key"), strBytes ("a"))]
    ∧ strBytes ("a") ≠ strBytes ("a b") := by
  constructor
  · decide
  · decide

/-- C6: evaluating both Version implementations: a `VERSION ` prefixed
reply yields the remainder in both; a scripted reply of exactly `ERROR`
yields the generic reply error in the textproto client, but `mem.go`
(which never consults the classifier in `Version`) returns the protocol
error `malformed version response: ERROR` instead. -/
theorem C6_version_error_reply :
    (Client.Version ⟨strBytes ("VERSION 1.6.9\r\n"), [], none, none⟩).1
      = Except.ok (strBytes ("1.6.9"))
    ∧ (TextConn.Version ⟨strBytes ("VERSION 1.6.9\r\n"), [], none⟩).1
      = Except.ok (strBytes ("1.6.9"))
    ∧ (TextConn.Version ⟨strBytes ("ERROR\r\n"), [], none⟩).1
      = Except.error GoErr.replyError
    ∧ (Client.Version ⟨strBytes ("ERROR\r\n"), [], none, none⟩).1
      = Except.error (GoErr.protocolError (ProtoMsg.malformedVersionResponse (strBytes ("ERROR")))) := by
  refine ⟨?_, ?_, ?_, ?_⟩
  · decide
  · decide
  · decide
  · decide

/-- C7: evaluating `mem.go`'s `Delete` when the flush of the request
fails (underlying writer fault `injected 0`): the error returned by
`flush` is discarded, the reply line is still read from the stream (the
input is consumed), and the call returns nil instead of the error. -/
theorem C7_delete_swallows_flush_error :
    (Client.Delete ⟨strBytes ("DELETED\r\n"), [], some (GoErr.injected 0), none⟩
        (strBytes ("foo")) false).1 = Except.ok ()
    ∧ (Client.Delete ⟨strBytes ("DELETED\r\n"), [], some (GoErr.injected 0), none⟩
        (strBytes ("foo")) false).2.input = [] := by
  constructor
  · decide
  · decide

/-- C8: whenever the sticky error slot is set, a line read returns no
bytes (with the stored error, on `mem.go`'s `Client`) and a buffered
write is a no-op, the stream and the stored error staying untouched, on
both client types. -/
theorem C8_sticky_error_short_circuit (c : Client) (tc : TextConn) (e e2 : GoErr)
    (p q : Bytes) (hc : c.err = some e) (ht : tc.err = some e2) :
    c.readLine = ([], some e, c) ∧ c.write p = c
    ∧ tc.readLine = ([], tc) ∧ tc.write q = tc := by
  refine ⟨?_, ?_, ?_, ?_⟩ <;>
    simp [Client.readLine, Client.write, TextConn.readLine, TextConn.write, hc, ht]

theorem C8_sticky_error_short_circuit_witness :
    Client.readLine ⟨strBytes ("DELETED\r\n"), [], none, some (GoErr.injected 7)⟩
      = ([], some (GoErr.injected 7), ⟨strBytes ("DELETED\r\n"), [], none, some (GoErr.injected 7)⟩)
    ∧ Client.write ⟨strBytes ("DELETED\r\n"), [], none, some (GoErr.injected 7)⟩ (strBytes ("x"))
      = ⟨strBytes ("DELETED\r\n"), [], none, some (GoErr.injected 7)⟩
    ∧ TextConn.readLine ⟨strBytes ("OK\r\n"), [], some GoErr.eofErr⟩
      = ([], ⟨strBytes ("OK\r\n"), [], some GoErr.eofErr⟩)
    ∧ TextConn.write ⟨strBytes ("OK\r\n"), [], some GoErr.eofErr⟩ (strBytes ("y"))
      = ⟨strBytes ("OK\r\n"), [], some GoErr.eofErr⟩ :=
  C8_sticky_error_short_circuit _ _ _ _ _ _ rfl rfl

/-- C9 counterexample: the flags field is parsed with a 32-bit bound, not
16-bit: the header `VALUE foo 65536 6 123` with flags 65536 > 65535 is
accepted and its flags returned, instead of being rejected. -/
theorem C9_flags_16bit_refuted :
    parseGetResponseHeader (strBytes ("VALUE foo 65536 6 123"))
      = Except.ok (strBytes ("foo"), 65536, 6, 123)
    ∧ 65535 < 65536 := by
  constructor
  · decide
  · decide

/-- C9 amended: the flags field is parsed as an unsigned decimal
restricted to 32-bit range: every header whose flags field is a decimal
number of 2 to the 32nd or more is rejected with a numeric range error
rather than returning those flags. -/
theorem C9_flags_32bit_range (header cmd key f s : Bytes) (rest : List Bytes)
    (hsplit : header.splitOn 32 = cmd :: key :: f :: s :: rest)
    (hne : f ≠ []) (hdig : f.all isDigitByte = true) (hbig : 2 ^ 32 ≤ digitsVal f) :
    parseGetResponseHeader header = Except.error (GoErr.numError f NumErrKind.errRange) := by
  have hemp : f.isEmpty = false := by
    cases f with
    | nil => exact absurd rfl hne
    | cons a tl => rfl
  have h32 : (2 : Nat) ^ 32 = 4294967296 := by norm_num
  rw [h32] at hbig
  have hlt : ¬ (digitsVal f < 4294967296) := Nat.not_lt.mpr hbig
  simp [parseGetResponseHeader, hsplit, parseUint, hemp, hdig, hlt]

theorem C9_flags_32bit_range_witness :
    parseGetResponseHeader (strBytes ("VALUE foo 4294967296 6"))
      = Except.error (GoErr.numError (strBytes ("4294967296")) NumErrKind.errRange) :=
  C9_flags_32bit_range (strBytes ("VALUE foo 4294967296 6")) (strBytes ("VALUE"))
    (strBytes ("foo")) (strBytes ("4294967296")) (strBytes ("6")) []
    (by decide) (by decide) (by decide) (by decide)

/-- C10: a VALUE header splitting into six or more space-separated fields
is accepted with no error whenever flags and length parse; the CAS id is
0 (the fifth field is parsed only for exactly five fields) and the fields
past the fourth do not influence the result. -/
theorem C10_cas_only_five_fields (header cmd key f s x5 x6 : Bytes) (rest : List Bytes)
    (fv sv : Nat) (hsplit : header.splitOn 32 = cmd :: key :: f :: s :: x5 :: x6 :: rest)
    (hf : parseUint f 32 = Except.ok fv) (hs : parseUint s 64 = Except.ok sv) :
    parseGetResponseHeader header = Except.ok (key, fv, sv, 0) := by
  simp [parseGetResponseHeader, hsplit, hf, hs]

theorem C10_cas_only_five_fields_witness :
    parseGetResponseHeader (strBytes ("VALUE foo 7 6 123 junk"))
      = Except.ok (strBytes ("foo"), 7, 6, 0) :=
  C10_cas_only_five_fields (strBytes ("VALUE foo 7 6 123 junk")) (strBytes ("VALUE"))
    (strBytes ("foo")) (strBytes ("7")) (strBytes ("6")) (strBytes ("123")) (strBytes ("junk"))
    [] 7 6 (by decide) (by decide) (by decide)

/-- C3: after a VALUE header declaring payload length `size`, the codec
reads exactly `size + 2` bytes from the stream; when the last two of
those bytes are CR LF it succeeds and the value kept by the caller is
exactly the first `size` bytes, and otherwise it returns the protocol
error citing `corrupt get result end`. -/
theorem C3_receiveGetPayload_exact (c : Client) (size : Nat)
    (h : size + 2 ≤ c.input.length) :
    (c.receiveGetPayload size).2 = { c with input := c.input.drop (size + 2) }
    ∧ ((c.input.take (size + 2)).drop size = 13 :: 10 :: [] →
        (c.receiveGetPayload size).1 = Except.ok (c.input.take (size + 2))
        ∧ (c.input.take (size + 2)).take size = c.input.take size)
    ∧ ((c.input.take (size + 2)).drop size ≠ 13 :: 10 :: [] →
        (c.receiveGetPayload size).1
          = Except.error (GoErr.protocolError ProtoMsg.corruptGetResultEnd)) := by
  have hcrlf : bytesCrlf = 13 :: 10 :: [] := by decide
  have hlen : (c.input.take (size + 2)).length = size + 2 := by
    rw [List.length_take]
    omega
  have hiff : (bytesCrlf <:+ c.input.take (size + 2)) ↔
      (c.input.take (size + 2)).drop size = 13 :: 10 :: [] := by
    constructor
    · rintro ⟨t, ht⟩
      have hlt : t.length = size := by
        have hl := congrArg List.length ht
        rw [List.length_append, hlen, hcrlf] at hl
        simp at hl
        omega
      rw [← ht, hcrlf, ← hlt, List.drop_left]
    · intro h2
      refine ⟨(c.input.take (size + 2)).take size, ?_⟩
      rw [hcrlf, ← h2]
      exact List.take_append_drop size _
  have htt : (c.input.take (size + 2)).take size = c.input.take size := by
    rw [List.take_take]
    congr 1
    omega
  by_cases hcr : (c.input.take (size + 2)).drop size = 13 :: 10 :: []
  · have hpos := hiff.mpr hcr
    refine ⟨?_, fun _ => ⟨?_, htt⟩, fun hne => absurd hcr hne⟩ <;>
      simp only [Client.receiveGetPayload, if_pos h, if_pos hpos]
  · have hneg : ¬ (bytesCrlf <:+ c.input.take (size + 2)) := fun hs => hcr (hiff.mp hs)
    refine ⟨?_, fun habs => absurd habs hcr, fun _ => ?_⟩ <;>
      simp only [Client.receiveGetPayload, if_pos h, if_neg hneg]

theorem C3_receiveGetPayload_exact_witness :
    (Client.receiveGetPayload ⟨strBytes ("foobar\r\nrest"), [], none, none⟩ 6).2
      = ⟨(strBytes ("foobar\r\nrest")).drop (6 + 2), [], none, none⟩
    ∧ (((strBytes ("foobar\r\nrest")).take (6 + 2)).drop 6 = 13 :: 10 :: [] →
        (Client.receiveGetPayload ⟨strBytes ("foobar\r\nrest"), [], none, none⟩ 6).1
          = Except.ok ((strBytes ("foobar\r\nrest")).take (6 + 2))
        ∧ ((strBytes ("foobar\r\nrest")).take (6 + 2)).take 6 = (strBytes ("foobar\r\nrest")).take 6)
    ∧ (((strBytes ("foobar\r\nrest")).take (6 + 2)).drop 6 ≠ 13 :: 10 :: [] →
        (Client.receiveGetPayload ⟨strBytes ("foobar\r\nrest"), [], none, none⟩ 6).1
          = Except.error (GoErr.protocolError ProtoMsg.corruptGetResultEnd)) :=
  C3_receiveGetPayload_exact ⟨strBytes ("foobar\r\nrest"), [], none, none⟩ 6 (by decide)

/-- C1: on a connection with no pending error, `TextConn.checkReply`
classifies a reply line in the fixed priority order: the exact success
tokens are success with no error; exact `EXISTS`, `NOT_STORED`,
`NOT_FOUND` and `ERROR` yield the matching named errors; a
`CLIENT_ERROR ` or `SERVER_ERROR ` prefixed line yields the matching
server-reported error whose message is exactly the remainder of the
line; any other line sets nothing and is left to the caller. -/
theorem C1_checkReply_classification (c : TextConn) (reply msg : Bytes) (hc : c.err = none) :
    ((reply = replyStored ∨ reply = replyDeleted ∨ reply = replyTouched ∨ reply = replyOk) →
      c.checkReply reply = (true, c))
    ∧ (reply = replyExists → c.checkReply reply = (false, { c with err := some GoErr.casConflict }))
    ∧ (reply = replyNotStored → c.checkReply reply = (false, { c with err := some GoErr.notStored }))
    ∧ (reply = replyNotFound → c.checkReply reply = (false, { c with err := some GoErr.notFound }))
    ∧ (reply = replyError → c.checkReply reply = (false, { c with err := some GoErr.replyError }))
    ∧ (reply = replyClientErrorTag ++ msg →
        c.checkReply reply = (false, { c with err := some (GoErr.clientError msg) }))
    ∧ (reply = replyServerErrorTag ++ msg →
        c.checkReply reply = (false, { c with err := some (GoErr.serverError msg) }))
    ∧ ((reply ≠ replyStored ∧ reply ≠ replyDeleted ∧ reply ≠ replyTouched ∧ reply ≠ replyOk
        ∧ reply ≠ replyExists ∧ reply ≠ replyNotStored ∧ reply ≠ replyNotFound
        ∧ reply ≠ replyError ∧ ¬ (replyClientErrorTag <+: reply)
        ∧ ¬ (replyServerErrorTag <+: reply)) →
        c.checkReply reply = (false, c)) := by
  refine ⟨?_, ?_, ?_, ?_, ?_, ?_, ?_, ?_⟩
  · intro h
    simp only [TextConn.checkReply, hc]
    rw [if_pos h]
  · intro h
    subst h
    simp only [TextConn.checkReply, hc]
    rw [if_neg (by decide), if_pos trivial]
  · intro h
    subst h
    simp only [TextConn.checkReply, hc]
    rw [if_neg (by decide), if_neg (by decide), if_pos trivial]
  · intro h
    subst h
    simp only [TextConn.checkReply, hc]
    rw [if_neg (by decide), if_neg (by decide), if_neg (by decide), if_pos trivial]
  · intro h
    subst h
    simp only [TextConn.checkReply, hc]
    rw [if_neg (by decide), if_neg (by decide), if_neg (by decide), if_neg (by decide),
      if_pos trivial]
  · intro h
    subst h
    simp only [TextConn.checkReply, hc]
    rw [if_neg ?hor, if_neg ?hx, if_neg ?hns, if_neg ?hnf, if_neg ?her,
      if_pos ⟨msg, rfl⟩, List.drop_left]
    case hor =>
      simp only [not_or]
      exact ⟨append_len_ne _ _ _ (by decide), append_len_ne _ _ _ (by decide),
        append_len_ne _ _ _ (by decide), append_len_ne _ _ _ (by decide)⟩
    case hx => exact append_len_ne _ _ _ (by decide)
    case hns => exact append_len_ne _ _ _ (by decide)
    case hnf => exact append_len_ne _ _ _ (by decide)
    case her => exact append_len_ne _ _ _ (by decide)
  · intro h
    subst h
    simp only [TextConn.checkReply, hc]
    rw [if_neg ?hor2, if_neg ?hx2, if_neg ?hns2, if_neg ?hnf2, if_neg ?her2,
      if_neg ?hcl2, if_pos ⟨msg, rfl⟩, List.drop_left]
    case hor2 =>
      simp only [not_or]
      exact ⟨append_len_ne _ _ _ (by decide), append_len_ne _ _ _ (by decide),
        append_len_ne _ _ _ (by decide), append_len_ne _ _ _ (by decide)⟩
    case hx2 => exact append_len_ne _ _ _ (by decide)
    case hns2 => exact append_len_ne _ _ _ (by decide)
    case hnf2 => exact append_len_ne _ _ _ (by decide)
    case her2 => exact append_len_ne _ _ _ (by decide)
    case hcl2 =>
      intro hp
      have htk := leading_take _ _ hp
      rw [show replyClientErrorTag.length = replyServerErrorTag.length from by decide,
        List.take_left] at htk
      exact absurd htk (by decide)
  · rintro ⟨h1, h2, h3, h4, h5, h6, h7, h8, h9, h10⟩
    simp only [TextConn.checkReply, hc]
    rw [if_neg (by simp only [not_or]; exact ⟨h1, h2, h3, h4⟩), if_neg h5, if_neg h6,
      if_neg h7, if_neg h8, if_neg h9, if_neg h10]

theorem C1_checkReply_classification_witness :
    TextConn.checkReply ⟨[], [], none⟩ (strBytes ("EXISTS"))
      = (false, ⟨[], [], some GoErr.casConflict⟩) :=
  (C1_checkReply_classification ⟨[], [], none⟩ (strBytes ("EXISTS")) [] rfl).2.1 rfl

theorem statsLoop_stat_step (fuel : Nat) (c : Client) (m : List (Bytes × Bytes))
    (t r key v : Bytes) (tail : List Bytes)
    (hc : c.err = none)
    (hi : c.input = (statTag ++ t) ++ 13 :: 10 :: r)
    (h10 : (10 : Nat) ∉ statTag ++ t)
    (hsplit : splitNOn 32 3 t = key :: v :: tail) :
    Client.statsLoop (fuel + 1) c m
      = Client.statsLoop fuel { c with input := r } (assocSet m key v) := by
  have hrl : c.readLine = (statTag ++ t, none, { c with input := r }) := by
    simp only [Client.readLine, hc, hi, readLineRaw_crlf _ _ h10]
  have hne : statTag ++ t ≠ responseEnd := append_len_ne _ _ _ (by decide)
  have hpre : statTag <+: statTag ++ t := ⟨t, rfl⟩
  have hdrop5 : (statTag ++ t).drop 5 = t := by
    have h5 : statTag.length = 5 := by decide
    rw [← h5]
    exact List.drop_left statTag t
  rw [Client.statsLoop.eq_2, hrl]
  simp only
  rw [if_neg hne, if_pos hpre, hdrop5, hsplit]

theorem statsRun_single_line (t key v : Bytes) (tail : List Bytes)
    (htl : (10 : Nat) ∉ statTag ++ t)
    (hsplit : splitNOn 32 3 t = key :: v :: tail) :
    (Client.Stats ⟨(statTag ++ t) ++ 13 :: 10 :: (responseEnd ++ 13 :: 10 :: []),
        [], none, none⟩).1 = StatsOutcome.ok [(key, v)] := by
  have h0 : (Client.Stats ⟨(statTag ++ t) ++ 13 :: 10 :: (responseEnd ++ 13 :: 10 :: []),
        [], none, none⟩).1
      = (Client.statsLoop
          (((statTag ++ t) ++ 13 :: 10 :: (responseEnd ++ 13 :: 10 :: [])).length + 1)
          ⟨(statTag ++ t) ++ 13 :: 10 :: (responseEnd ++ 13 :: 10 :: []),
            [] ++ strBytes ("stats\r\n"), none, none⟩ []).1 := rfl
  rw [h0]
  have hstep := statsLoop_stat_step
      (((statTag ++ t) ++ 13 :: 10 :: (responseEnd ++ 13 :: 10 :: [])).length)
      ⟨(statTag ++ t) ++ 13 :: 10 :: (responseEnd ++ 13 :: 10 :: []),
        [] ++ strBytes ("stats\r\n"), none, none⟩
      [] t (responseEnd ++ 13 :: 10 :: []) key v tail rfl rfl htl hsplit
  have hfin := statsLoop_final_end
      (((statTag ++ t) ++ 13 :: 10 :: (responseEnd ++ 13 :: 10 :: [])).length)
      ⟨responseEnd ++ 13 :: 10 :: [], [] ++ strBytes ("stats\r\n"), none, none⟩
      (assocSet [] key v)
      (by simp only [List.length_append, List.length_cons]; omega) rfl rfl
  rw [hstep, hfin]
  rfl

/-- C5 amended: in a stats line `STAT <key> ...` the key is terminated at
the first space; the stored value is the field between the first and
second spaces after the prefix (the line is split at the first two
spaces), so any content after a second space is silently dropped rather
than kept as part of the value. -/
theorem C5_stats_value_second_field (key v rest : Bytes)
    (hk32 : (32 : Nat) ∉ key) (hk10 : (10 : Nat) ∉ key)
    (hv32 : (32 : Nat) ∉ v) (hv10 : (10 : Nat) ∉ v)
    (hr10 : (10 : Nat) ∉ rest) :
    (Client.Stats ⟨(statTag ++ (key ++ 32 :: v)) ++ 13 :: 10 :: (responseEnd ++ 13 :: 10 :: []),
        [], none, none⟩).1 = StatsOutcome.ok [(key, v)]
    ∧ (Client.Stats ⟨(statTag ++ (key ++ 32 :: (v ++ 32 :: rest)))
          ++ 13 :: 10 :: (responseEnd ++ 13 :: 10 :: []),
        [], none, none⟩).1 = StatsOutcome.ok [(key, v)] := by
  have hst10 : (10 : Nat) ∉ statTag := by decide
  constructor
  · refine statsRun_single_line (key ++ 32 :: v) key v [] ?_ ?_
    · intro hmem
      rcases List.mem_append.mp hmem with h | h
      · exact hst10 h
      · rcases List.mem_append.mp h with h2 | h2
        · exact hk10 h2
        · rcases List.mem_cons.mp h2 with h3 | h3
          · exact absurd h3 (by decide)
          · exact hv10 h3
    · rw [show (3 : Nat) = 1 + 2 from rfl, splitNOn_split_at_sep 32 1 key v hk32]
      rw [splitNOn_no_sep 32 2 v hv32 (by omega)]
  · refine statsRun_single_line (key ++ 32 :: (v ++ 32 :: rest)) key v [rest] ?_ ?_
    · intro hmem
      rcases List.mem_append.mp hmem with h | h
      · exact hst10 h
      · rcases List.mem_append.mp h with h2 | h2
        · exact hk10 h2
        · rcases List.mem_cons.mp h2 with h3 | h3
          · exact absurd h3 (by decide)
          · rcases List.mem_append.mp h3 with h4 | h4
            · exact hv10 h4
            · rcases List.mem_cons.mp h4 with h5 | h5
              · exact absurd h5 (by decide)
              · exact hr10 h5
    · rw [show (3 : Nat) = 1 + 2 from rfl,
        splitNOn_split_at_sep 32 1 key (v ++ 32 :: rest) hk32,
        show (1 + 1 : Nat) = 0 + 2 from rfl,
        splitNOn_split_at_sep 32 0 v rest hv32]
      rfl

theorem C5_stats_value_second_field_witness :
    (Client.Stats ⟨(statTag ++ (strBytes ("key") ++ 32 :: strBytes ("a")))
          ++ 13 :: 10 :: (responseEnd ++ 13 :: 10 :: []), [], none, none⟩).1
      = StatsOutcome.ok [(strBytes ("key"), strBytes ("a"))]
    ∧ (Client.Stats ⟨(statTag ++ (strBytes ("key") ++ 32 :: (strBytes ("a") ++ 32 :: strBytes ("b"))))
          ++ 13 :: 10 :: (responseEnd ++ 13 :: 10 :: []), [], none, none⟩).1
      = StatsOutcome.ok [(strBytes ("key"), strBytes ("a"))] :=
  C5_stats_value_second_field (strBytes ("key")) (strBytes ("a")) (strBytes ("b"))
    (by decide) (by decide) (by decide) (by decide) (by decide)
